import Mathlib

/-!
# Verification of `mdu` (multithreaded disk usage), `src/main.cpp`

A shallow embedding of the concurrent disk-usage program `mdu` and proofs about
it.  The program keeps one `ThreadInfo` record shared between a dispatcher
(`init_threads`) and a pool of workers (`thread_function`); every access to the
shared fields happens inside a critical section of the single mutex, so the
embedding models executions as interleavings of whole critical sections.

The filesystem is modelled as a finite tree of entries.  Each node carries the
answers the C++ filesystem calls would give for the corresponding
`directory_entry`:

* `isSymlink`    — result of `fs::is_symlink(entry)`;
* `isDirectory`  — result of `entry.is_directory()` (which follows symlinks);
* `present`      — result of `fs::exists(entry.path())`;
* `readable`     — whether `fs::status(...).permissions() & owner_read` is set;
* `metaOk`       — whether the metadata queries for the entry succeed at all
  (`false` models an entry whose `fs::is_symlink` / `fs::file_size` call throws
  `filesystem_error`, e.g. a vanished file or a dangling symlink);
* `size`         — result of `fs::file_size(entry.path())`.

`int` flag fields of the source (`error`, values 0/1) are modelled as `Bool`;
`process_count` (a C++ `int`) is modelled as `Int` so that its non-negativity
is a statement, not a typing artifact.
-/

set_option autoImplicit false

namespace Mdu

/-- Metadata of one directory entry, as reported by the filesystem accessor. -/
structure EntryMeta where
  isSymlink : Bool
  isDirectory : Bool
  present : Bool
  readable : Bool
  metaOk : Bool
  size : Nat
deriving DecidableEq, Repr

/-- A filesystem tree: one entry together with the entries its directory
listing would yield (`[]` for files and symlinks, and also possible for an
empty directory). -/
inductive FsTree where
| node : EntryMeta → List FsTree → FsTree

/-- Metadata of the entry at the root of a tree. -/
def FsTree.meta : FsTree → EntryMeta
| .node m _ => m

/-- Directory listing of the entry at the root of a tree. -/
def FsTree.children : FsTree → List FsTree
| .node _ cs => cs

mutual
/-- Number of bytes the scan of `mdu` attributes to one entry
(`main.cpp:241-273`): a symlink or a regular file contributes its own size; a
readable, existing directory contributes the bytes of its listing (it is pushed
and later scanned); an unreadable or vanished directory contributes nothing
(the `else` branch at `main.cpp:261-266` only sets the error flag). -/
def entryBytes : FsTree → Nat
| .node m cs =>
  if m.isSymlink then m.size
  else if m.isDirectory then
    (if m.present && m.readable then forestBytes cs else 0)
  else m.size

/-- Bytes the scan attributes to a whole directory listing. -/
def forestBytes : List FsTree → Nat
| [] => 0
| t :: ts => entryBytes t + forestBytes ts
end

mutual
/-- Whether scanning one entry (and the part of its subtree that `mdu`
descends into) hits the permission-denied branch of `add_directory`
(`main.cpp:261-266`). -/
def entryErr : FsTree → Bool
| .node m cs =>
  if m.isSymlink then false
  else if m.isDirectory then
    (if m.present && m.readable then forestErr cs else true)
  else false

/-- Whether scanning a directory listing hits the permission-denied branch. -/
def forestErr : List FsTree → Bool
| [] => false
| t :: ts => entryErr t || forestErr ts
end

mutual
/-- Spec-side sum: the sizes of **all** regular-file and symlink entries of a
tree, reached without traversing through symlinks (a symlink contributes its
own reported size and its target is never entered; every directory is
entered). -/
def specTreeBytes : FsTree → Nat
| .node m cs =>
  if m.isSymlink then m.size
  else if m.isDirectory then specListBytes cs
  else m.size

/-- Spec-side sum over a directory listing. -/
def specListBytes : List FsTree → Nat
| [] => 0
| t :: ts => specTreeBytes t + specListBytes ts
end

mutual
/-- A static, fully accessible tree: every metadata query succeeds, and every
non-symlink directory entry exists and is owner-readable, recursively. -/
def treeReadable : FsTree → Bool
| .node m cs =>
  m.metaOk &&
  (if m.isSymlink then true
   else if m.isDirectory then m.present && m.readable && listReadable cs
   else true)

/-- `treeReadable` for every entry of a listing. -/
def listReadable : List FsTree → Bool
| [] => true
| t :: ts => treeReadable t && listReadable ts
end

/-! ## The shared record (`ThreadInfo`, `main.cpp:22-33`)

`stack.first` is the pending-directory stack (head = `top()`), `stack.second`
the running byte total.  `error` is the C++ `int` flag (0/1) modelled as
`Bool`; `process_count` is an `Int`; `no_more_work` the shutdown flag.  The
mutex and the two condition variables are not data; they are modelled by the
granularity of the transition systems below. -/
structure ThreadInfo where
  pending : List FsTree
  total : Nat
  error : Bool
  process_count : Int
  no_more_work : Bool

/-! ## `add_directory` (`main.cpp:235-281`), sequential view

One call of `add_directory` iterates over the listing of `path`.  Per entry:

* if any metadata query throws (`metaOk = false`), the `filesystem_error`
  propagates out of `add_directory` — there is no `try`/`catch` anywhere in
  the program — so the iteration stops, the local `size` accumulated so far is
  discarded (the final `threadInfo.stack.second += size` at line 277 is never
  executed), while subdirectories already pushed stay pushed.  This is the
  `Except.error` result, carrying the shared state as it stands at the throw.
* symlink (line 243): `size += fs::file_size(...)`, never pushed;
* directory (line 250): if it exists and is owner-readable it is pushed onto
  the shared stack (line 256) under the lock; otherwise a diagnostic is
  printed and the local `error` becomes 1 (line 265);
* otherwise (line 270): `size += fs::file_size(...)`.

After the loop, `size` is added to the shared total under the lock
(lines 275-278) and the local `error` is returned. -/
def addDirLoop (st : ThreadInfo) (size : Nat) (err : Bool) :
    List FsTree → Except ThreadInfo (ThreadInfo × Nat × Bool)
| [] => .ok (st, size, err)
| e :: es =>
  if e.meta.metaOk = false then .error st
  else if e.meta.isSymlink then addDirLoop st (size + e.meta.size) err es
  else if e.meta.isDirectory then
    if e.meta.present && e.meta.readable then
      addDirLoop { st with pending := e :: st.pending } size err es
    else
      addDirLoop st size true es
  else addDirLoop st (size + e.meta.size) err es

/-- `add_directory threadInfo path`: scan the listing of `path`, then add the
accumulated size to the shared total and return the local error flag.  The
`Except.error` case is an escaping `filesystem_error`. -/
def add_directory (st : ThreadInfo) (path : FsTree) :
    Except ThreadInfo (ThreadInfo × Bool) :=
  match addDirLoop st 0 false path.children with
  | .error st' => .error st'
  | .ok (st', size, err) => .ok ({ st' with total := st'.total + size }, err)

/-! Pure descriptions of what one successful `add_directory` call does to a
listing, entry by entry, for the characterization lemma below. -/

/-- The subdirectories a scan of `cs` pushes, in scan order: the non-symlink
directory entries that exist and are owner-readable. -/
def pushedDirs (cs : List FsTree) : List FsTree :=
  cs.filter fun e =>
    !e.meta.isSymlink && e.meta.isDirectory && (e.meta.present && e.meta.readable)

/-- The local `size` accumulated by a scan of `cs`: symlink and regular-file
entries contribute their reported size, directory entries contribute 0. -/
def localSize (cs : List FsTree) : Nat :=
  (cs.map fun e =>
    if e.meta.isSymlink then e.meta.size
    else if e.meta.isDirectory then 0
    else e.meta.size).sum

/-- Total size of the symlink entries of a listing. -/
def symlinkBytes (cs : List FsTree) : Nat :=
  ((cs.filter fun e => e.meta.isSymlink).map fun e => e.meta.size).sum

/-- Total size of the regular-file entries of a listing. -/
def fileBytes (cs : List FsTree) : Nat :=
  ((cs.filter fun e => !e.meta.isSymlink && !e.meta.isDirectory).map
    fun e => e.meta.size).sum

/-- Whether a scan of `cs` hits the permission-denied branch directly (a
non-symlink directory entry that is absent or not owner-readable). -/
def scanErr (cs : List FsTree) : Bool :=
  cs.any fun e =>
    !e.meta.isSymlink && e.meta.isDirectory && !(e.meta.present && e.meta.readable)

/-- Every metadata query of the listing itself succeeds. -/
def listOk (cs : List FsTree) : Bool :=
  cs.all fun e => e.meta.metaOk

/-- Characterization of a successful scan: on a listing whose metadata queries
all succeed, `add_directory` returns `ok`, pushes exactly the readable
subdirectories (each push `cons`es, so the pushed block appears reversed on
top of the old stack), adds exactly `localSize` to the shared total, returns
`scanErr` as its error flag, and leaves every other shared field unchanged. -/
theorem add_directory_ok (st : ThreadInfo) (m : EntryMeta) (cs : List FsTree)
    (h : listOk cs = true) :
    add_directory st (.node m cs) =
      .ok ({ st with
              pending := (pushedDirs cs).reverse ++ st.pending,
              total := st.total + localSize cs },
           scanErr cs) := by
  suffices hgen : ∀ (cs : List FsTree) (st : ThreadInfo) (size : Nat) (err : Bool),
      listOk cs = true →
      addDirLoop st size err cs =
        .ok ({ st with pending := (pushedDirs cs).reverse ++ st.pending },
             size + localSize cs, err || scanErr cs) by
    have hc := hgen cs st 0 false h
    simp only [add_directory, FsTree.children, hc]
    simp
  intro cs
  induction cs with
  | nil =>
    intro st size err _
    simp [addDirLoop, pushedDirs, localSize, scanErr]
  | cons e es ih =>
    intro st size err hok
    obtain ⟨em, ecs⟩ := e
    simp only [listOk, List.all_cons, Bool.and_eq_true, FsTree.meta] at hok
    obtain ⟨hem, hok2⟩ := hok
    have hok' : listOk es = true := hok2
    have ihe := fun st size err => ih st size err hok'
    cases hsym : em.isSymlink with
    | true =>
      simp only [addDirLoop, FsTree.meta, hem, hsym, Bool.true_eq_false, if_false, if_true,
        ihe]
      simp only [pushedDirs, localSize, scanErr, List.filter_cons, List.map_cons,
        List.any_cons, List.sum_cons, FsTree.meta, hsym]
      simp [Nat.add_assoc]
    | false =>
      cases hdir : em.isDirectory with
      | true =>
        cases hp : em.present with
        | true =>
          cases hr : em.readable with
          | true =>
            simp only [addDirLoop, FsTree.meta, hem, hsym, hdir, hp, hr,
              Bool.true_eq_false, Bool.and_self, if_false, if_true, ihe]
            simp only [pushedDirs, localSize, scanErr, List.filter_cons, List.map_cons,
              List.any_cons, List.sum_cons, FsTree.meta, hsym, hdir, hp, hr]
            simp
          | false =>
            simp only [addDirLoop, FsTree.meta, hem, hsym, hdir, hp, hr,
              Bool.true_eq_false, Bool.and_false, if_false, if_true, ihe]
            simp only [pushedDirs, localSize, scanErr, List.filter_cons, List.map_cons,
              List.any_cons, List.sum_cons, FsTree.meta, hsym, hdir, hp, hr]
            simp
        | false =>
          simp only [addDirLoop, FsTree.meta, hem, hsym, hdir, hp,
            Bool.true_eq_false, Bool.false_and, if_false, if_true, ihe]
          simp only [pushedDirs, localSize, scanErr, List.filter_cons, List.map_cons,
            List.any_cons, List.sum_cons, FsTree.meta, hsym, hdir, hp]
          simp
      | false =>
        simp only [addDirLoop, FsTree.meta, hem, hsym, hdir,
          Bool.true_eq_false, if_false, ihe]
        simp only [pushedDirs, localSize, scanErr, List.filter_cons, List.map_cons,
          List.any_cons, List.sum_cons, FsTree.meta, hsym, hdir]
        simp [Nat.add_assoc]

/-- What an escaping metadata error does: if the listing is `pre ++ bad :: post`
with every query of `pre` succeeding and a query of `bad` throwing, the
exception aborts `add_directory` at `bad`.  The subdirectories of `pre` stay
pushed, but the entries of `post` are never scanned and the local size is
never added to the shared total. -/
theorem add_directory_throw (st : ThreadInfo) (m : EntryMeta)
    (pre : List FsTree) (bad : FsTree) (post : List FsTree)
    (hpre : listOk pre = true) (hbad : bad.meta.metaOk = false) :
    add_directory st (.node m (pre ++ bad :: post)) =
      .error { st with pending := (pushedDirs pre).reverse ++ st.pending } := by
  suffices hgen : ∀ (pre : List FsTree) (st : ThreadInfo) (size : Nat) (err : Bool),
      listOk pre = true →
      addDirLoop st size err (pre ++ bad :: post) =
        .error { st with pending := (pushedDirs pre).reverse ++ st.pending } by
    have hc := hgen pre st 0 false hpre
    simp only [add_directory, FsTree.children, hc]
  intro pre
  induction pre with
  | nil =>
    intro st size err _
    simp [addDirLoop, hbad, pushedDirs]
  | cons e es ih =>
    intro st size err hok
    obtain ⟨em, ecs⟩ := e
    simp only [listOk, List.all_cons, Bool.and_eq_true, FsTree.meta] at hok
    obtain ⟨hem, hok2⟩ := hok
    have ihe := fun st size err => ih st size err hok2
    cases hsym : em.isSymlink with
    | true =>
      simp only [List.cons_append, List.append_eq, addDirLoop, FsTree.meta, hem, hsym,
        Bool.true_eq_false, if_false, if_true, ihe]
      simp [pushedDirs, FsTree.meta, hsym]
    | false =>
      cases hdir : em.isDirectory with
      | true =>
        cases hpr : (em.present && em.readable) with
        | true =>
          simp only [List.cons_append, List.append_eq, addDirLoop, FsTree.meta, hem, hsym, hdir, hpr,
            Bool.true_eq_false, if_false, if_true, ihe]
          simp only [pushedDirs, List.filter_cons, FsTree.meta, hsym, hdir, hpr]
          simp
        | false =>
          simp only [List.cons_append, List.append_eq, addDirLoop, FsTree.meta, hem, hsym, hdir, hpr,
            Bool.true_eq_false, if_false, if_true, ihe]
          simp only [pushedDirs, List.filter_cons, FsTree.meta, hsym, hdir, hpr]
          simp
      | false =>
        simp only [List.cons_append, List.append_eq, addDirLoop, FsTree.meta, hem, hsym, hdir,
          Bool.true_eq_false, if_false, ihe]
        simp only [pushedDirs, List.filter_cons, FsTree.meta, hsym, hdir]
        simp

/-! ## The worker pool as a transition system (`thread_function`,
`main.cpp:174-233`)

Every access to the shared `ThreadInfo` happens in a critical section of the
one mutex, so an execution of the pool is an interleaving of critical
sections.  A `Config` is the shared state together with the in-flight scans:

* `stack`    — `threadInfo.stack.first` (head = top);
* `total`    — `threadInfo.stack.second`;
* `errFlag`  — `threadInfo.error`;
* `pcount`   — `threadInfo.process_count`;
* `scanners` — one `Scanner` per worker currently inside `add_directory`
  (the region between the `process_count++` of line 215 and the
  `process_count--` of line 227), recording the entries it has not yet
  scanned and the local `size`/`error` accumulated so far.

The transitions are the critical sections of the worker loop and of
`add_directory`:

* `pop`        — lines 213-215: pop the top of the stack, `process_count++`,
  start scanning its listing;
* `scanSymlink`/`scanFile`/`scanDirPush`/`scanDirErr` — one iteration of the
  loop of `add_directory` (lines 241-273); only `scanDirPush` touches shared
  state (the push of line 256, its own critical section);
* `finish`     — the end of a scan: `stack.second += size` (lines 275-278)
  and the caller's merge `error`/`process_count--` (lines 221-227).  In the
  source these are two consecutive critical sections of the same worker with
  no shared access between them; they are merged into one transition, which
  only removes interleavings in which another worker runs between the two —
  no transition reads `total`, so no behaviour distinguishable by the claims
  is lost.

Condition-variable signalling removes schedules (a worker that is not woken
does not run) but never adds any: every real execution is an interleaving of
these critical sections, so every invariant proved over `Step` holds for the
real pool.  The signalling itself is analysed separately by the handshake
model further below. -/

/-- One worker's in-flight `add_directory` call. -/
structure Scanner where
  remaining : List FsTree
  localBytes : Nat
  localErr : Bool

/-- Shared state plus in-flight scans. -/
structure Config where
  stack : List FsTree
  total : Nat
  errFlag : Bool
  pcount : Int
  scanners : List Scanner

/-- One critical section of a worker, acting on the shared state.  A scan
step may act on any in-flight scanner, hence the `pre`/`post` framing. -/
inductive Step : Config → Config → Prop
| pop (t : FsTree) (rest : List FsTree) (total : Nat) (err : Bool) (pc : Int)
    (sc : List Scanner) :
    Step ⟨t :: rest, total, err, pc, sc⟩
         ⟨rest, total, err, pc + 1, ⟨t.children, 0, false⟩ :: sc⟩
| scanSymlink (pre post : List Scanner) (e : FsTree) (rem : List FsTree)
    (loc : Nat) (le : Bool) (stk : List FsTree) (total : Nat) (err : Bool) (pc : Int) :
    e.meta.metaOk = true → e.meta.isSymlink = true →
    Step ⟨stk, total, err, pc, pre ++ ⟨e :: rem, loc, le⟩ :: post⟩
         ⟨stk, total, err, pc, pre ++ ⟨rem, loc + e.meta.size, le⟩ :: post⟩
| scanFile (pre post : List Scanner) (e : FsTree) (rem : List FsTree)
    (loc : Nat) (le : Bool) (stk : List FsTree) (total : Nat) (err : Bool) (pc : Int) :
    e.meta.metaOk = true → e.meta.isSymlink = false → e.meta.isDirectory = false →
    Step ⟨stk, total, err, pc, pre ++ ⟨e :: rem, loc, le⟩ :: post⟩
         ⟨stk, total, err, pc, pre ++ ⟨rem, loc + e.meta.size, le⟩ :: post⟩
| scanDirPush (pre post : List Scanner) (e : FsTree) (rem : List FsTree)
    (loc : Nat) (le : Bool) (stk : List FsTree) (total : Nat) (err : Bool) (pc : Int) :
    e.meta.metaOk = true → e.meta.isSymlink = false → e.meta.isDirectory = true →
    (e.meta.present && e.meta.readable) = true →
    Step ⟨stk, total, err, pc, pre ++ ⟨e :: rem, loc, le⟩ :: post⟩
         ⟨e :: stk, total, err, pc, pre ++ ⟨rem, loc, le⟩ :: post⟩
| scanDirErr (pre post : List Scanner) (e : FsTree) (rem : List FsTree)
    (loc : Nat) (le : Bool) (stk : List FsTree) (total : Nat) (err : Bool) (pc : Int) :
    e.meta.metaOk = true → e.meta.isSymlink = false → e.meta.isDirectory = true →
    (e.meta.present && e.meta.readable) = false →
    Step ⟨stk, total, err, pc, pre ++ ⟨e :: rem, loc, le⟩ :: post⟩
         ⟨stk, total, err, pc, pre ++ ⟨rem, loc, true⟩ :: post⟩
| finish (pre post : List Scanner) (loc : Nat) (le : Bool)
    (stk : List FsTree) (total : Nat) (err : Bool) (pc : Int) :
    Step ⟨stk, total, err, pc, pre ++ ⟨[], loc, le⟩ :: post⟩
         ⟨stk, total + loc, err || le, pc - 1, pre ++ post⟩

/-- Finitely many worker critical sections. -/
def Steps : Config → Config → Prop := Relation.ReflTransGen Step

/-- An execution of a pool of at most `n` workers: after every critical
section at most `n` scans are in flight. -/
def StepN (n : Nat) (a b : Config) : Prop := Step a b ∧ b.scanners.length ≤ n

/-- Finitely many critical sections of a pool of at most `n` workers. -/
def StepsN (n : Nat) : Config → Config → Prop := Relation.ReflTransGen (StepN n)

/-- The quiescence predicate of the pool for the current job: empty stack and
no in-flight scan. -/
def Quiescent (c : Config) : Prop := c.stack = [] ∧ c.scanners = []

/-- The dispatcher's per-root seeding (`main.cpp:136-141`): the pending stack
is **replaced** by the one-element stack `{root}`; the running total
`stack.second` is left as it is. -/
def seedJob (c : Config) (r : FsTree) : Config := { c with stack := [r] }

/-- The freshly constructed `ThreadInfo` at program start. -/
def initConfig : Config := ⟨[], 0, false, 0, []⟩

/-- The process exit status (`main.cpp:110-114`): the value of the shared
`error` flag. -/
def exit_value (c : Config) : Nat := if c.errFlag then 1 else 0

/-- `entryBytes` unfolded through the `meta`/`children` projections. -/
theorem entryBytes_unfold (e : FsTree) :
    entryBytes e =
      if e.meta.isSymlink then e.meta.size
      else if e.meta.isDirectory then
        (if e.meta.present && e.meta.readable then forestBytes e.children else 0)
      else e.meta.size := by
  obtain ⟨m, cs⟩ := e
  simp [entryBytes, FsTree.meta, FsTree.children]

/-- `entryErr` unfolded through the `meta`/`children` projections. -/
theorem entryErr_unfold (e : FsTree) :
    entryErr e =
      if e.meta.isSymlink then false
      else if e.meta.isDirectory then
        (if e.meta.present && e.meta.readable then forestErr e.children else true)
      else false := by
  obtain ⟨m, cs⟩ := e
  simp [entryErr, FsTree.meta, FsTree.children]

/-- Bytes a scanner will still contribute to the total: its local size plus
the bytes of the entries it has not scanned yet. -/
def scanBytes (s : Scanner) : Nat := s.localBytes + forestBytes s.remaining

/-- Bytes the stack will still contribute: each pending directory is later
scanned by listing, so it contributes the bytes of its listing. -/
def stackBytes (l : List FsTree) : Nat := (l.map fun t => forestBytes t.children).sum

/-- Conserved byte measure of a configuration: bytes already in the total plus
all bytes still to come from the stack and from the in-flight scans. -/
def byteMeasure (c : Config) : Nat :=
  c.total + stackBytes c.stack + (c.scanners.map scanBytes).sum

/-- Whether a scanner has hit or will hit the permission-denied branch. -/
def scanErrFlag (s : Scanner) : Bool := s.localErr || forestErr s.remaining

/-- Whether scanning the pending stack will hit the permission-denied branch. -/
def stackErrFlag (l : List FsTree) : Bool := l.any fun t => forestErr t.children

/-- Conserved error measure: the flag already set, or a permission error still
to be discovered on the stack or in flight. -/
def errMeasure (c : Config) : Bool :=
  c.errFlag || stackErrFlag c.stack || c.scanners.any scanErrFlag

/-- Every critical section conserves the byte measure, the error measure, and
the difference between `process_count` and the number of in-flight scans. -/
theorem step_invariants {a b : Config} (h : Step a b) :
    byteMeasure b = byteMeasure a ∧ errMeasure b = errMeasure a ∧
    b.pcount - b.scanners.length = a.pcount - a.scanners.length := by
  cases h with
  | pop t rest total err pc sc =>
    refine ⟨?_, ?_, ?_⟩
    · simp [byteMeasure, stackBytes, scanBytes]
      try omega
    · simp [errMeasure, stackErrFlag, scanErrFlag, Bool.or_assoc, Bool.or_comm,
        Bool.or_left_comm]
    · simp
      try omega
  | scanSymlink pre post e rem loc le stk total err pc hok hsym =>
    refine ⟨?_, ?_, ?_⟩
    · simp [byteMeasure, scanBytes, forestBytes, entryBytes_unfold, hsym]
      try omega
    · simp [errMeasure, scanErrFlag, forestErr, entryErr_unfold, hsym]
    · simp
  | scanFile pre post e rem loc le stk total err pc hok hsym hdir =>
    refine ⟨?_, ?_, ?_⟩
    · simp [byteMeasure, scanBytes, forestBytes, entryBytes_unfold, hsym, hdir]
      try omega
    · simp [errMeasure, scanErrFlag, forestErr, entryErr_unfold, hsym, hdir]
    · simp
  | scanDirPush pre post e rem loc le stk total err pc hok hsym hdir hpr =>
    refine ⟨?_, ?_, ?_⟩
    · simp [byteMeasure, scanBytes, stackBytes, forestBytes, entryBytes_unfold,
        hsym, hdir, hpr]
      try omega
    · simp [errMeasure, scanErrFlag, stackErrFlag, forestErr, entryErr_unfold,
        hsym, hdir, hpr, Bool.or_assoc, Bool.or_comm, Bool.or_left_comm]
    · simp
  | scanDirErr pre post e rem loc le stk total err pc hok hsym hdir hpr =>
    refine ⟨?_, ?_, ?_⟩
    · simp [byteMeasure, scanBytes, forestBytes, entryBytes_unfold, hsym, hdir, hpr]
    · simp [errMeasure, scanErrFlag, forestErr, entryErr_unfold, hsym, hdir, hpr,
        Bool.or_assoc, Bool.or_comm, Bool.or_left_comm]
    · simp
  | finish pre post loc le stk total err pc =>
    refine ⟨?_, ?_, ?_⟩
    · simp [byteMeasure, scanBytes, forestBytes]
      try omega
    · simp [errMeasure, scanErrFlag, forestErr, Bool.or_assoc, Bool.or_comm,
        Bool.or_left_comm]
    · simp
      try omega

/-- The conserved quantities over any number of critical sections. -/
theorem steps_invariants {a b : Config} (h : Steps a b) :
    byteMeasure b = byteMeasure a ∧ errMeasure b = errMeasure a ∧
    b.pcount - b.scanners.length = a.pcount - a.scanners.length := by
  induction h with
  | refl => exact ⟨rfl, rfl, rfl⟩
  | tail _ hstep ih =>
    obtain ⟨h1, h2, h3⟩ := step_invariants hstep
    exact ⟨h1.trans ih.1, h2.trans ih.2.1, h3.trans ih.2.2⟩

/-- An execution with at most `n` workers is an execution. -/
theorem stepsN_steps {n : Nat} {a b : Config} (h : StepsN n a b) : Steps a b :=
  Relation.ReflTransGen.mono (fun _ _ hs => hs.1) h

/-- One job, from seeding to quiescence: the shared total grows by exactly the
bytes of the root's listing, the error flag becomes its old value OR-ed with
the permission errors of the root's reachable subtree, and `process_count`
returns to its old value. -/
theorem job_run {c : Config} {r : FsTree} {c' : Config}
    (h0 : c.scanners = []) (h : Steps (seedJob c r) c') (hq : Quiescent c') :
    c'.total = c.total + forestBytes r.children ∧
    c'.errFlag = (c.errFlag || forestErr r.children) ∧
    c'.pcount = c.pcount := by
  obtain ⟨h1, h2, h3⟩ := steps_invariants h
  obtain ⟨hqs, hqc⟩ := hq
  constructor
  · have := h1
    simp [byteMeasure, seedJob, stackBytes, scanBytes, h0, hqs, hqc] at this
    omega
  constructor
  · have := h2
    simp [errMeasure, seedJob, stackErrFlag, scanErrFlag, h0, hqs, hqc] at this
    exact this
  · have := h3
    simp [seedJob, h0, hqs, hqc] at this
    omega

/-- The dispatcher's loop over the root paths (`main.cpp:131-159`), for roots
that exist and are directories: each iteration replaces the pending stack with
`{root}`, lets the pool run to quiescence, and prints the shared running total
`stack.second` as that root's size. `RunJobs c rs outs cf` says: starting from
`c`, processing the roots `rs` in order can produce the printed totals `outs`
and leave the shared state at `cf`. -/
inductive RunJobs : Config → List FsTree → List Nat → Config → Prop
| nil (c : Config) : RunJobs c [] [] c
| cons (c : Config) (r : FsTree) (c' : Config) (rs : List FsTree) (outs : List Nat)
    (cf : Config) :
    Steps (seedJob c r) c' → Quiescent c' → RunJobs c' rs outs cf →
    RunJobs c (r :: rs) (c'.total :: outs) cf

/-- Cumulative totals: the value of the never-reset `stack.second` after each
root. -/
def cumTotals (acc : Nat) : List FsTree → List Nat
| [] => []
| r :: rs => (acc + forestBytes r.children) :: cumTotals (acc + forestBytes r.children) rs

/-- What a whole dispatcher run prints and leaves behind: the printed line of
each root is the **cumulative** total of that root's bytes and all earlier
roots' bytes (the total is never reset), and the final error flag is the OR of
the per-root permission errors. -/
theorem runJobs_spec {c : Config} {rs : List FsTree} {outs : List Nat} {cf : Config}
    (h : RunJobs c rs outs cf) (h0 : c.scanners = []) :
    outs = cumTotals c.total rs ∧
    cf.total = c.total + (rs.map fun r => forestBytes r.children).sum ∧
    cf.errFlag = (c.errFlag || rs.any fun r => forestErr r.children) ∧
    cf.scanners = [] := by
  induction h with
  | nil c => simp [cumTotals, h0]
  | cons c r c' rs outs cf hsteps hq hrun ih =>
    obtain ⟨ht, he, _⟩ := job_run h0 hsteps hq
    obtain ⟨iouts, itot, ierr, iscan⟩ := ih hq.2
    refine ⟨?_, ?_, ?_, iscan⟩
    · simp [cumTotals, iouts, ht]
    · simp [itot, ht]
      omega
    · simp [ierr, he, Bool.or_assoc]

mutual
/-- On a static, fully readable tree the bytes the scan attributes to an entry
are exactly the spec-side sum of all its file and symlink sizes. -/
theorem entryBytes_of_readable :
    ∀ (t : FsTree), treeReadable t = true → entryBytes t = specTreeBytes t
  | .node m cs, h => by
    simp only [treeReadable, Bool.and_eq_true] at h
    obtain ⟨_, h2⟩ := h
    cases hsym : m.isSymlink with
    | true => simp [entryBytes, specTreeBytes, hsym]
    | false =>
      cases hdir : m.isDirectory with
      | true =>
        simp only [hsym, hdir, Bool.false_eq_true, if_false, if_true,
          Bool.and_eq_true] at h2
        obtain ⟨⟨hp, hr⟩, hl⟩ := h2
        simp [entryBytes, specTreeBytes, hsym, hdir, hp, hr,
          forestBytes_of_readable cs hl]
      | false => simp [entryBytes, specTreeBytes, hsym, hdir]

/-- List version of `entryBytes_of_readable`. -/
theorem forestBytes_of_readable :
    ∀ (l : List FsTree), listReadable l = true → forestBytes l = specListBytes l
  | [], _ => by simp [forestBytes, specListBytes]
  | t :: ts, h => by
    simp only [listReadable, Bool.and_eq_true] at h
    simp [forestBytes, specListBytes, entryBytes_of_readable t h.1,
      forestBytes_of_readable ts h.2]
end

/-- Spec-side notion for the error flag: some directory entry that the scan
reaches (inside readable directories only) is a non-symlink directory that is
absent or not owner-readable. -/
inductive UnreadableReachable : List FsTree → Prop
| hd_unreadable (m : EntryMeta) (cs rest : List FsTree) :
    m.isSymlink = false → m.isDirectory = true → (m.present && m.readable) = false →
    UnreadableReachable (FsTree.node m cs :: rest)
| hd_inside (m : EntryMeta) (cs rest : List FsTree) :
    m.isSymlink = false → m.isDirectory = true → (m.present && m.readable) = true →
    UnreadableReachable cs → UnreadableReachable (FsTree.node m cs :: rest)
| tl (t : FsTree) (rest : List FsTree) :
    UnreadableReachable rest → UnreadableReachable (t :: rest)

/-- The permission-error bit of the scan is set exactly when an unreadable
directory is reachable. -/
theorem forestErr_iff_unreadable :
    ∀ (l : List FsTree), forestErr l = true ↔ UnreadableReachable l
  | [] => by
    simp only [forestErr, Bool.false_eq_true, false_iff]
    intro h
    cases h
  | (FsTree.node m cs) :: ts => by
    have ihc := forestErr_iff_unreadable cs
    have iht := forestErr_iff_unreadable ts
    constructor
    · intro h
      simp only [forestErr, Bool.or_eq_true] at h
      cases h with
      | inl he =>
        cases hsym : m.isSymlink with
        | true => simp [entryErr, hsym] at he
        | false =>
          cases hdir : m.isDirectory with
          | true =>
            cases hpr : (m.present && m.readable) with
            | true =>
              simp only [entryErr, hsym, hdir, hpr, Bool.false_eq_true, if_false,
                if_true] at he
              exact .hd_inside m cs ts hsym hdir hpr (ihc.mp he)
            | false => exact .hd_unreadable m cs ts hsym hdir hpr
          | false => simp [entryErr, hsym, hdir] at he
      | inr ht => exact .tl _ _ (iht.mp ht)
    · intro h
      cases h with
      | hd_unreadable m cs rest hsym hdir hpr =>
        simp [forestErr, entryErr, hsym, hdir, hpr]
      | hd_inside m cs rest hsym hdir hpr hin =>
        simp [forestErr, entryErr, hsym, hdir, hpr, ihc.mpr hin]
      | tl t rest hin =>
        simp [forestErr, iht.mpr hin]

/-- The local size of a listing splits into the symlink part and the
regular-file part. -/
theorem localSize_decomp (cs : List FsTree) :
    localSize cs = symlinkBytes cs + fileBytes cs := by
  induction cs with
  | nil => simp [localSize, symlinkBytes, fileBytes]
  | cons e es ih =>
    cases hsym : e.meta.isSymlink with
    | true =>
      simp [localSize, symlinkBytes, fileBytes, List.filter_cons, hsym] at ih ⊢
      omega
    | false =>
      cases hdir : e.meta.isDirectory with
      | true =>
        simp [localSize, symlinkBytes, fileBytes, List.filter_cons, hsym, hdir] at ih ⊢
        omega
      | false =>
        simp [localSize, symlinkBytes, fileBytes, List.filter_cons, hsym, hdir] at ih ⊢
        omega

/-- Nothing in the pushed block is a symlink — the symlink test of line 243
comes first, so even a symlink whose `is_directory()` is true is filtered
out. -/
theorem pushedDirs_no_symlink (cs : List FsTree) :
    ∀ t ∈ pushedDirs cs, t.meta.isSymlink = false := by
  intro t ht
  simp only [pushedDirs, List.mem_filter, Bool.and_eq_true, Bool.not_eq_true'] at ht
  exact ht.2.1.1

/-! ## The condition-variable handshake

The transition system above abstracts from the two condition variables; this
second, finer model makes the blocking behaviour of `work_available` and
`threads_complete` explicit, for the liveness analysis.  It covers the run of
`init_threads` on a **single root directory whose listing contains only
regular files** (sizes `root : List Nat`): scanning such a listing performs no
shared-state access until the final `stack.second += size`, so one
`add_directory` call is two consecutive critical sections, modelled as the
`scanning` → `evalLoop` transition.

Semantics of the condition variables is that of
`std::condition_variable`: `wait` releases the mutex and blocks;
`notify_one` wakes one blocked waiter (and is **lost** when nobody is
blocked); `notify_all` wakes every blocked waiter; additionally any `wait`
may return spuriously at any time.  Spurious wakeups are modelled by the
separate `spurNext`: a real execution may, but need not, contain them.

All shared accesses happen under the one mutex, so a state records only
program counters plus the shared data, and each transition is one critical
section. -/

/-- Dispatcher program counter (`init_threads`, single root). -/
inductive DPc
| seed      -- lines 136-144: `stack.first = {root}`, `work_available.notify_one()`
| acq2      -- line 148: acquire the lock to enter `threads_complete.wait`
| waitTC    -- line 149: blocked in `threads_complete.wait`
| readTotal -- line 153: wait returned; read and print `stack.second`
| shutdown  -- lines 162-166: `no_more_work = true`, `work_available.notify_all()`
| done      -- lines 169-172: joining
deriving DecidableEq, Repr

/-- Worker program counter (`thread_function`). -/
inductive WPc
| start      -- lines 178-181: about to enter the initial `work_available.wait`
| waitInit   -- line 180: blocked in the initial wait (no predicate!)
| evalLoop   -- line 185: about to execute the locked evaluation (lines 185-215)
| waitInner  -- line 191: blocked in the inner `while` wait
| waitSignal -- line 207: blocked in the wait after `threads_complete.notify_one`
| scanning (entries : List Nat) -- inside `add_directory`, lock not held
| finished   -- returned (line 199)
deriving DecidableEq, Repr

/-- Whether a worker is blocked on `work_available`. -/
def wpcWaiting : WPc → Bool
| .waitInit => true
| .waitInner => true
| .waitSignal => true
| _ => false

/-- A worker woken from any of its three `work_available.wait` calls
re-acquires the lock and proceeds to the locked evaluation: from `waitInit`
the initial block ends and the loop is entered; from `waitInner` the inner
`while` re-checks its condition; from `waitSignal` line 208 unlocks and the
outer loop re-locks. -/
def wakeAll (ws : List WPc) : List WPc :=
  ws.map fun w => if wpcWaiting w then .evalLoop else w

/-- Indices of the workers blocked on `work_available`. -/
def waitingIdxs (ws : List WPc) : List Nat :=
  (List.range ws.length).filter fun i => wpcWaiting (ws.getD i .finished)

/-- `work_available.notify_one`: wake any one blocked worker; if none is
blocked the notification is lost. -/
def notifyOne (ws : List WPc) : List (List WPc) :=
  match waitingIdxs ws with
  | [] => [ws]
  | is => is.map fun i => ws.set i .evalLoop

/-- State of the handshake model. -/
structure SyncState where
  dpc : DPc
  workers : List WPc
  stack : List (List Nat)
  total : Nat
  pcount : Int
  noMoreWork : Bool
  printed : Option Nat
deriving DecidableEq, Repr

/-- Dispatcher critical sections for the single root `root`. -/
def dispStep (root : List Nat) (s : SyncState) : List SyncState :=
  match s.dpc with
  | .seed =>
      (notifyOne s.workers).map fun ws =>
        { s with dpc := .acq2, stack := [root], workers := ws }
  | .acq2 => [{ s with dpc := .waitTC }]
  | .waitTC => []
  | .readTotal => [{ s with dpc := .shutdown, printed := some s.total }]
  | .shutdown =>
      [{ s with dpc := .done, noMoreWork := true, workers := wakeAll s.workers }]
  | .done => []

/-- The locked evaluation of worker `i` (lines 185-215), one critical
section.  The third branch performs `threads_complete.notify_one` (line 205):
it wakes the dispatcher exactly when the dispatcher is blocked in
`threads_complete.wait`, and is lost otherwise. -/
def workerEval (s : SyncState) (i : Nat) : List SyncState :=
  if s.stack = [] ∧ s.pcount > 0 then
    [{ s with workers := s.workers.set i .waitInner }]
  else if s.noMoreWork then
    [{ s with workers := s.workers.set i .finished }]
  else
    match s.stack with
    | [] =>
        [{ s with dpc := if s.dpc = .waitTC then .readTotal else s.dpc,
                  workers := s.workers.set i .waitSignal }]
    | p :: rest =>
        [{ s with stack := rest, pcount := s.pcount + 1,
                  workers := s.workers.set i (.scanning p) }]

/-- Critical sections of worker `i`. The `scanning` step is the end of
`add_directory` (`stack.second += size`, lines 275-278) merged with the
caller's `process_count--` and `work_available.notify_all()` (lines 221-230):
two consecutive critical sections of the same worker with no intervening
shared access. -/
def workerStep (s : SyncState) (i : Nat) : List SyncState :=
  match s.workers.getD i .finished with
  | .start => [{ s with workers := s.workers.set i .waitInit }]
  | .evalLoop => workerEval s i
  | .scanning es =>
      [{ s with total := s.total + es.sum, pcount := s.pcount - 1,
                workers := wakeAll (s.workers.set i .evalLoop) }]
  | _ => []

/-- All program successors of a state (no spurious wakeups). -/
def syncNext (root : List Nat) (s : SyncState) : List SyncState :=
  dispStep root s ++ (List.range s.workers.length).flatMap (workerStep s)

/-- Spurious-wakeup successors: any blocked `wait` may return without a
notification. -/
def spurNext (s : SyncState) : List SyncState :=
  (if s.dpc = .waitTC then [{ s with dpc := .readTotal }] else []) ++
  (List.range s.workers.length).flatMap fun i =>
    if wpcWaiting (s.workers.getD i .finished) then
      [{ s with workers := s.workers.set i .evalLoop }]
    else []

/-- A program step. -/
def SyncStep (root : List Nat) (a b : SyncState) : Prop := b ∈ syncNext root a

/-- Finitely many program steps, no spurious wakeups (every real execution
may, but need not, contain spurious wakeups, so this is a subset of the real
executions). -/
def SyncReach (root : List Nat) : SyncState → SyncState → Prop :=
  Relation.ReflTransGen (SyncStep root)

/-- A program step or a spurious wakeup. -/
def SyncStepSp (root : List Nat) (a b : SyncState) : Prop :=
  b ∈ syncNext root a ∨ b ∈ spurNext a

/-- Finitely many steps, spurious wakeups allowed. -/
def SyncReachSp (root : List Nat) : SyncState → SyncState → Prop :=
  Relation.ReflTransGen (SyncStepSp root)

/-- The state right after `main` constructed `ThreadInfo` and `init_threads`
spawned `n` workers. -/
def syncInit (n : Nat) : SyncState :=
  ⟨.seed, List.replicate n .start, [], 0, 0, false, none⟩

/-- Whether a worker is inside `add_directory` (between the
`process_count++` of line 215 and the `process_count--` of line 227). -/
def isScanning : WPc → Bool
| .scanning _ => true
| _ => false

/-- Number of workers inside `add_directory`. -/
def scanningCount : List WPc → Nat
| [] => 0
| w :: ws => (if isScanning w then 1 else 0) + scanningCount ws

/-- Effect of replacing one worker's program counter on `scanningCount`. -/
theorem scanningCount_set :
    ∀ (ws : List WPc) (i : Nat) (w' : WPc), i < ws.length →
      scanningCount (ws.set i w') + (if isScanning (ws.getD i .finished) then 1 else 0) =
        scanningCount ws + (if isScanning w' then 1 else 0)
  | [], i, w', h => by simp at h
  | w :: ws, 0, w', _ => by
      simp only [List.set_cons_zero, List.getD_cons_zero, scanningCount]
      omega
  | w :: ws, i + 1, w', h => by
      have ih := scanningCount_set ws i w' (by simpa using h)
      simp only [List.set_cons_succ, List.getD_cons_succ, scanningCount]
      omega

/-- Waking blocked workers does not change how many are scanning. -/
theorem scanningCount_wakeAll (ws : List WPc) :
    scanningCount (wakeAll ws) = scanningCount ws := by
  induction ws with
  | nil => rfl
  | cons w ws ih =>
    cases w <;> simp [wakeAll, scanningCount, wpcWaiting, isScanning] at ih ⊢ <;> omega

/-- `notify_one` does not change how many workers are scanning. -/
theorem notifyOne_scanningCount {ws ws' : List WPc} (h : ws' ∈ notifyOne ws) :
    scanningCount ws' = scanningCount ws := by
  unfold notifyOne at h
  cases hidx : waitingIdxs ws with
  | nil =>
    rw [hidx] at h
    simp only [List.mem_singleton] at h
    rw [h]
  | cons j js =>
    rw [hidx] at h
    simp only [List.mem_map] at h
    obtain ⟨i, hi, rfl⟩ := h
    have hmem : i ∈ waitingIdxs ws := by rw [hidx]; exact hi
    simp only [waitingIdxs, List.mem_filter, List.mem_range] at hmem
    obtain ⟨hlt, hw⟩ := hmem
    have hscan : isScanning (ws.getD i .finished) = false := by
      revert hw
      cases ws.getD i .finished <;> simp [wpcWaiting, isScanning]
    have hset := scanningCount_set ws i .evalLoop hlt
    rw [hscan] at hset
    simp only [isScanning, if_false] at hset
    omega

/-- The handshake invariant: `process_count` equals the number of workers
inside `add_directory`. -/
def syncInv (s : SyncState) : Prop := s.pcount = scanningCount s.workers

/-- Dispatcher critical sections preserve the invariant. -/
theorem dispStep_inv {root : List Nat} {a b : SyncState}
    (hb : b ∈ dispStep root a) (ha : syncInv a) : syncInv b := by
  unfold syncInv at ha ⊢
  unfold dispStep at hb
  cases hd : a.dpc <;> rw [hd] at hb <;>
    simp only [List.mem_map, List.mem_singleton, List.not_mem_nil] at hb
  case seed =>
    obtain ⟨ws, hws, rfl⟩ := hb
    simpa [notifyOne_scanningCount hws] using ha
  case acq2 => rw [hb]; exact ha
  case readTotal => rw [hb]; exact ha
  case shutdown => rw [hb]; simpa [scanningCount_wakeAll] using ha

/-- Worker critical sections preserve the invariant. -/
theorem workerStep_inv {a b : SyncState} {i : Nat} (hi : i < a.workers.length)
    (hb : b ∈ workerStep a i) (ha : syncInv a) : syncInv b := by
  unfold syncInv at ha ⊢
  unfold workerStep at hb
  cases hwc : a.workers.getD i .finished <;> rw [hwc] at hb
  case start =>
    simp only [List.mem_singleton] at hb
    subst hb
    have hset := scanningCount_set a.workers i .waitInit hi
    rw [hwc] at hset
    simp [isScanning] at hset
    show a.pcount = (scanningCount (a.workers.set i WPc.waitInit) : Int)
    omega
  case waitInit => exact absurd hb (by simp)
  case evalLoop =>
    unfold workerEval at hb
    by_cases hg1 : a.stack = [] ∧ a.pcount > 0
    · rw [if_pos hg1] at hb
      simp only [List.mem_singleton] at hb
      subst hb
      have hset := scanningCount_set a.workers i .waitInner hi
      rw [hwc] at hset
      simp [isScanning] at hset
      show a.pcount = (scanningCount (a.workers.set i WPc.waitInner) : Int)
      omega
    · rw [if_neg hg1] at hb
      by_cases hg2 : a.noMoreWork = true
      · rw [if_pos hg2] at hb
        simp only [List.mem_singleton] at hb
        subst hb
        have hset := scanningCount_set a.workers i .finished hi
        rw [hwc] at hset
        simp [isScanning] at hset
        show a.pcount = (scanningCount (a.workers.set i WPc.finished) : Int)
        omega
      · rw [if_neg hg2] at hb
        cases hstk : a.stack with
        | nil =>
          rw [hstk] at hb
          simp only [List.mem_singleton] at hb
          subst hb
          have hset := scanningCount_set a.workers i .waitSignal hi
          rw [hwc] at hset
          simp [isScanning] at hset
          show a.pcount = (scanningCount (a.workers.set i WPc.waitSignal) : Int)
          omega
        | cons p rest =>
          rw [hstk] at hb
          simp only [List.mem_singleton] at hb
          subst hb
          have hset := scanningCount_set a.workers i (.scanning p) hi
          rw [hwc] at hset
          simp [isScanning] at hset
          show a.pcount + 1 = (scanningCount (a.workers.set i (WPc.scanning p)) : Int)
          omega
  case waitInner => exact absurd hb (by simp)
  case waitSignal => exact absurd hb (by simp)
  case scanning es =>
    simp only [List.mem_singleton] at hb
    subst hb
    have hset := scanningCount_set a.workers i .evalLoop hi
    rw [hwc] at hset
    simp [isScanning] at hset
    show a.pcount - 1 = (scanningCount (wakeAll (a.workers.set i WPc.evalLoop)) : Int)
    rw [scanningCount_wakeAll]
    omega
  case finished => exact absurd hb (by simp)

/-- Spurious wakeups preserve the invariant. -/
theorem spurNext_inv {a b : SyncState} (hb : b ∈ spurNext a) (ha : syncInv a) :
    syncInv b := by
  unfold syncInv at ha ⊢
  unfold spurNext at hb
  rw [List.mem_append] at hb
  cases hb with
  | inl h =>
    split at h
    · simp only [List.mem_singleton] at h
      rw [h]
      exact ha
    · exact absurd h (by simp)
  | inr h =>
    simp only [List.mem_flatMap, List.mem_range] at h
    obtain ⟨i, hi, hmem⟩ := h
    split at hmem
    · rename_i hw
      simp only [List.mem_singleton] at hmem
      subst hmem
      have hscan : isScanning (a.workers.getD i .finished) = false := by
        revert hw
        cases a.workers.getD i .finished <;> simp [wpcWaiting, isScanning]
      have hset := scanningCount_set a.workers i .evalLoop hi
      rw [hscan] at hset
      simp [isScanning] at hset
      show a.pcount = (scanningCount (a.workers.set i WPc.evalLoop) : Int)
      omega
    · exact absurd hmem (by simp)

/-- At program start no worker is scanning. -/
theorem scanningCount_replicate_start (n : Nat) :
    scanningCount (List.replicate n .start) = 0 := by
  induction n with
  | zero => rfl
  | succ n ih => simp [List.replicate_succ, scanningCount, isScanning, ih]

/-- In every reachable state — spurious wakeups included — `process_count`
equals the number of workers currently inside `add_directory`, and is in
particular non-negative. -/
theorem syncReachSp_inv {root : List Nat} {n : Nat} {s : SyncState}
    (h : SyncReachSp root (syncInit n) s) :
    s.pcount = scanningCount s.workers ∧ 0 ≤ s.pcount := by
  have hinv : syncInv s := by
    induction h with
    | refl => simp [syncInv, syncInit, scanningCount_replicate_start]
    | tail _ hstep ih =>
      cases hstep with
      | inl hprog =>
        rw [syncNext, List.mem_append] at hprog
        cases hprog with
        | inl hd => exact dispStep_inv hd ih
        | inr hw =>
          simp only [List.mem_flatMap, List.mem_range] at hw
          obtain ⟨i, hi, hmem⟩ := hw
          exact workerStep_inv hi hmem ih
      | inr hspur => exact spurNext_inv hspur ih
  refine ⟨hinv, ?_⟩
  rw [syncInv] at hinv
  omega

/-! ## `check_num_threads` (`main.cpp:283-329`) -/

/-- Value of a digit string. -/
def digitsVal (ds : List Char) : Int :=
  ds.foldl (fun acc c => acc * 10 + (c.toNat - '0'.toNat)) 0

/-- `std::stoi` on the arguments this program is given: an optional minus sign
followed by decimal digits.  `none` models `std::stoi` throwing
(`std::invalid_argument`), which the surrounding `catch` turns into
`exit(EXIT_FAILURE)`.  (The base-10 prefix-parsing refinements of `std::stoi`
are irrelevant to the claims and not modelled.) -/
def stoi (s : String) : Option Int :=
  match s.data with
  | [] => none
  | '-' :: ds =>
      if ds ≠ [] ∧ ds.all Char.isDigit then some (-(digitsVal ds)) else none
  | ds => if ds.all Char.isDigit then some (digitsVal ds) else none

/-- The argument loop of `check_num_threads` (`main.cpp:290-321`).
`maxThreads` is `std::thread::hardware_concurrency()`; the list is
`argv[1..]`; `n` is the current `numThreads` (initially 1); `files` the
files collected so far (in reverse).  On `-j v`: `numThreads = stoi(v)`,
clamped **down** to `maxThreads` when it exceeds it — there is no lower
clamp.  `none` models the `exit(EXIT_FAILURE)` paths (unparsable count, or
`-j` as last argument, where `argv[i + 1]` is the terminating null
pointer). -/
def argLoop (maxThreads : Int) : List String → Int → List String →
    Option (List String × Int)
| [], n, files => some (files.reverse, n)
| a :: rest, n, files =>
  if a = "-j" then
    match rest with
    | [] => none
    | v :: rest2 =>
      match stoi v with
      | none => none
      | some k =>
          argLoop maxThreads rest2 (if k > maxThreads then maxThreads else k) files
  else argLoop maxThreads rest n (a :: files)

/-- `check_num_threads`: run the argument loop with the default of one
thread. -/
def check_num_threads (maxThreads : Int) (args : List String) :
    Option (List String × Int) :=
  argLoop maxThreads args 1 []

/-- Arguments other than `-j` are collected as files and do not touch the
thread count. -/
theorem argLoop_no_j (maxThreads : Int) :
    ∀ (pre : List String), "-j" ∉ pre → ∀ (rest : List String) (n : Int)
      (files : List String),
      argLoop maxThreads (pre ++ rest) n files =
        argLoop maxThreads rest n (pre.reverse ++ files)
  | [], _, rest, n, files => by simp
  | a :: pre, h, rest, n, files => by
    have ha : a ≠ "-j" := fun hc => h (hc ▸ List.mem_cons_self a pre)
    have hpre : "-j" ∉ pre := fun hc => h (List.mem_cons_of_mem a hc)
    rw [List.cons_append, argLoop.eq_def]
    simp only [if_neg ha]
    rw [argLoop_no_j maxThreads pre hpre rest n (a :: files)]
    simp

/-- Ending the argument list with non-`-j` arguments. -/
theorem argLoop_final (maxThreads : Int) (post : List String) (h : "-j" ∉ post)
    (n : Int) (files : List String) :
    argLoop maxThreads post n files = some (files.reverse ++ post, n) := by
  have := argLoop_no_j maxThreads post h [] n files
  rw [List.append_nil] at this
  rw [this]
  simp [argLoop]

/-! ## Concrete trees and executions used by the witnesses -/

/-- Metadata of a readable directory entry. -/
def dirMeta : EntryMeta := ⟨false, true, true, true, true, 0⟩

/-- Metadata of an unreadable (not owner-readable) directory entry. -/
def dirMetaUnreadable : EntryMeta := ⟨false, true, true, false, true, 0⟩

/-- Metadata of a regular file of `n` bytes. -/
def fileMeta (n : Nat) : EntryMeta := ⟨false, false, true, true, true, n⟩

/-- Metadata of a symlink of reported size `n` whose target is a directory
(`entry.is_directory()` follows the link, so it answers `true`). -/
def symDirMeta (n : Nat) : EntryMeta := ⟨true, true, true, true, true, n⟩

/-- Metadata of an entry whose metadata query throws (vanished entry,
dangling symlink, …). -/
def badMeta : EntryMeta := ⟨false, false, true, true, false, 0⟩

/-- A directory holding one 200-byte file. -/
def demoTree1 : FsTree := .node dirMeta [.node (fileMeta 200) []]

/-- A directory holding one 300-byte file. -/
def demoTree2 : FsTree := .node dirMeta [.node (fileMeta 300) []]

/-- A complete one-worker drain of `demoTree1` from a fresh configuration. -/
theorem demoSteps1 : Steps (seedJob initConfig demoTree1) ⟨[], 200, false, 0, []⟩ :=
  .head (Step.pop demoTree1 [] 0 false 0 [])
    (.head (Step.scanFile [] [] (.node (fileMeta 200) []) [] 0 false [] 0 false 1
        rfl rfl rfl)
      (.head (Step.finish [] [] 200 false [] 0 false 1) .refl))

/-- The same drain of `demoTree2`, starting from the leftover total 200. -/
theorem demoSteps2 :
    Steps (seedJob (⟨[], 200, false, 0, []⟩ : Config) demoTree2) ⟨[], 500, false, 0, []⟩ :=
  .head (Step.pop demoTree2 [] 200 false 0 [])
    (.head (Step.scanFile [] [] (.node (fileMeta 300) []) [] 0 false [] 200 false 1
        rfl rfl rfl)
      (.head (Step.finish [] [] 300 false [] 200 false 1) .refl))

/-- A dispatcher run over the two independent roots: it prints 200 and then
the cumulative 500. -/
theorem demoRun2 :
    RunJobs initConfig [demoTree1, demoTree2] [200, 500] ⟨[], 500, false, 0, []⟩ :=
  RunJobs.cons _ demoTree1 ⟨[], 200, false, 0, []⟩ _ _ _ demoSteps1 ⟨rfl, rfl⟩
    (RunJobs.cons _ demoTree2 ⟨[], 500, false, 0, []⟩ _ _ _ demoSteps2 ⟨rfl, rfl⟩
      (RunJobs.nil _))

/-- The drain of `demoTree1` as an execution of a pool of at most `n ≥ 1`
workers. -/
theorem demoChainN (n : Nat) (hn : 1 ≤ n) :
    StepsN n (seedJob initConfig demoTree1) ⟨[], 200, false, 0, []⟩ := by
  refine Relation.ReflTransGen.head ⟨Step.pop demoTree1 [] 0 false 0 [], ?_⟩
    (Relation.ReflTransGen.head
      ⟨Step.scanFile [] [] (.node (fileMeta 200) []) [] 0 false [] 0 false 1
        rfl rfl rfl, ?_⟩
      (Relation.ReflTransGen.head ⟨Step.finish [] [] 200 false [] 0 false 1, ?_⟩
        Relation.ReflTransGen.refl))
  · simpa using hn
  · simpa using hn
  · simp

/-- The scenario tree of the specification: a file of 100 bytes, a readable
subdirectory `B` holding 50 bytes, and an unreadable subdirectory `C` holding
10 bytes. -/
def dirB : FsTree := .node dirMeta [.node (fileMeta 50) []]

/-- The unreadable subdirectory `C`. -/
def dirC : FsTree := .node dirMetaUnreadable [.node (fileMeta 10) []]

/-- The scenario root. -/
def rootC5 : FsTree := .node dirMeta [.node (fileMeta 100) [], dirB, dirC]

/-- A one-worker drain of the scenario root: total 150 (the unreadable
subtree contributes nothing, the sibling subtree `B` is fully counted), error
flag set. -/
theorem demoStepsC5 : Steps (seedJob initConfig rootC5) ⟨[], 150, true, 0, []⟩ :=
  .head (Step.pop rootC5 [] 0 false 0 [])
    (.head (Step.scanFile [] [] (.node (fileMeta 100) []) [dirB, dirC] 0 false
        [] 0 false 1 rfl rfl rfl)
      (.head (Step.scanDirPush [] [] dirB [dirC] 100 false [] 0 false 1
          rfl rfl rfl rfl)
        (.head (Step.scanDirErr [] [] dirC [] 100 false [dirB] 0 false 1
            rfl rfl rfl rfl)
          (.head (Step.finish [] [] 100 true [dirB] 0 false 1)
            (.head (Step.pop dirB [] 100 true 0 [])
              (.head (Step.scanFile [] [] (.node (fileMeta 50) []) [] 0 false
                  [] 100 true 1 rfl rfl rfl)
                (.head (Step.finish [] [] 50 false [] 100 true 1) .refl)))))))

/-- The scenario as a full dispatcher run. -/
theorem runC5 : RunJobs initConfig [rootC5] [150] ⟨[], 150, true, 0, []⟩ :=
  RunJobs.cons _ rootC5 ⟨[], 150, true, 0, []⟩ _ _ _ demoStepsC5 ⟨rfl, rfl⟩
    (RunJobs.nil _)

/-! Concrete states of the handshake model, for a single worker and a single
root directory containing one 7-byte file. -/

/-- The deadlocked state: the dispatcher seeded the stack and issued its
`notify_one` while the worker had not yet reached the initial
`work_available.wait` (line 180), so the notification was lost; the
dispatcher is blocked in `threads_complete.wait`, the worker in the initial
`work_available.wait`, and the seeded root is still on the stack. -/
def deadState : SyncState := ⟨.waitTC, [.waitInit], [[7]], 0, 0, false, none⟩

/-- The deadlock is reached by three program steps: dispatcher seeds and
notifies (lost), dispatcher enters `threads_complete.wait`, worker enters the
initial `work_available.wait`. -/
theorem deadState_reached : SyncReach [7] (syncInit 1) deadState :=
  .head
    (show (⟨.acq2, [.start], [[7]], 0, 0, false, none⟩ : SyncState) ∈
        syncNext [7] (syncInit 1) by decide)
    (.head
      (show (⟨.waitTC, [.start], [[7]], 0, 0, false, none⟩ : SyncState) ∈
          syncNext [7] ⟨.acq2, [.start], [[7]], 0, 0, false, none⟩ by decide)
      (.head
        (show deadState ∈
            syncNext [7] ⟨.waitTC, [.start], [[7]], 0, 0, false, none⟩ by decide)
        .refl))

/-- The state in which a spurious wakeup of the dispatcher's predicate-less
`threads_complete.wait` (line 149) has let it read and print `stack.second`
(value 0) while the worker is still inside `add_directory` on the popped
root. -/
def earlyReadState : SyncState := ⟨.shutdown, [.scanning [7]], [], 0, 1, false, some 0⟩

/-- The state after the worker then finishes its scan: the job's actual total
is 7, but 0 was printed. -/
def lateTotalState : SyncState := ⟨.shutdown, [.evalLoop], [], 7, 0, false, some 0⟩

/-- Reaching `earlyReadState`: worker blocks, dispatcher seeds (waking the
worker) and blocks in `threads_complete.wait`, worker pops the root, then the
dispatcher wakes **spuriously** and reads the total. -/
theorem earlyReadState_reached : SyncReachSp [7] (syncInit 1) earlyReadState :=
  .head
    (Or.inl (show (⟨.seed, [.waitInit], [], 0, 0, false, none⟩ : SyncState) ∈
        syncNext [7] (syncInit 1) by decide))
    (.head
      (Or.inl (show (⟨.acq2, [.evalLoop], [[7]], 0, 0, false, none⟩ : SyncState) ∈
          syncNext [7] ⟨.seed, [.waitInit], [], 0, 0, false, none⟩ by decide))
      (.head
        (Or.inl (show (⟨.waitTC, [.evalLoop], [[7]], 0, 0, false, none⟩ : SyncState) ∈
            syncNext [7] ⟨.acq2, [.evalLoop], [[7]], 0, 0, false, none⟩ by decide))
        (.head
          (Or.inl (show (⟨.waitTC, [.scanning [7]], [], 0, 1, false, none⟩ : SyncState) ∈
              syncNext [7] ⟨.waitTC, [.evalLoop], [[7]], 0, 0, false, none⟩ by decide))
          (.head
            (Or.inr (show (⟨.readTotal, [.scanning [7]], [], 0, 1, false, none⟩ : SyncState) ∈
                spurNext ⟨.waitTC, [.scanning [7]], [], 0, 1, false, none⟩ by decide))
            (.head
              (Or.inl (show earlyReadState ∈
                  syncNext [7] ⟨.readTotal, [.scanning [7]], [], 0, 1, false, none⟩ by decide))
              .refl)))))

/-- From the early read, the worker's finish brings the total to 7. -/
theorem lateTotalState_reached : SyncReachSp [7] earlyReadState lateTotalState :=
  .head (Or.inl (show lateTotalState ∈ syncNext [7] earlyReadState by decide)) .refl

/-- The state of a normal (no spurious wakeup) run at the moment the worker
re-evaluates after finishing the only directory: stack empty, count zero —
the situation in which the quiescence signal of line 205 fires. -/
def sigState : SyncState := ⟨.waitTC, [.evalLoop], [], 7, 0, false, none⟩

/-- Reaching `sigState` by program steps only. -/
theorem sigState_reached : SyncReachSp [7] (syncInit 1) sigState :=
  .head
    (Or.inl (show (⟨.seed, [.waitInit], [], 0, 0, false, none⟩ : SyncState) ∈
        syncNext [7] (syncInit 1) by decide))
    (.head
      (Or.inl (show (⟨.acq2, [.evalLoop], [[7]], 0, 0, false, none⟩ : SyncState) ∈
          syncNext [7] ⟨.seed, [.waitInit], [], 0, 0, false, none⟩ by decide))
      (.head
        (Or.inl (show (⟨.waitTC, [.evalLoop], [[7]], 0, 0, false, none⟩ : SyncState) ∈
            syncNext [7] ⟨.acq2, [.evalLoop], [[7]], 0, 0, false, none⟩ by decide))
        (.head
          (Or.inl (show (⟨.waitTC, [.scanning [7]], [], 0, 1, false, none⟩ : SyncState) ∈
              syncNext [7] ⟨.waitTC, [.evalLoop], [[7]], 0, 0, false, none⟩ by decide))
          (.head
            (Or.inl (show sigState ∈
                syncNext [7] ⟨.waitTC, [.scanning [7]], [], 0, 1, false, none⟩ by decide))
            .refl))))

/-! Concrete inputs for the `add_directory` claims. -/

/-- A fresh shared record. -/
def sh0 : ThreadInfo := ⟨[], 0, false, 0, false⟩

/-- An entry whose metadata query throws. -/
def badE : FsTree := .node badMeta []

/-- A 5-byte regular file. -/
def okE5 : FsTree := .node (fileMeta 5) []

/-- A directory whose first entry's metadata query throws. -/
def dir6 : FsTree := .node dirMeta [badE, okE5]

/-- A readable, empty subdirectory. -/
def subdirE : FsTree := .node dirMeta []

/-- A directory holding one readable subdirectory. -/
def dir8 : FsTree := .node dirMeta [subdirE]

/-- A symlink of reported size 9 whose target is a directory. -/
def symDirE9 : FsTree := .node (symDirMeta 9) [.node (fileMeta 1) []]

/-! ## The claims -/

/-- Claim C1, counterexample: `init_threads` replaces `stack.first` with the
fresh one-element stack (line 141) but never resets `stack.second`, so the
run over the two independent roots of 200 and 300 bytes can print 200 and
then the cumulative 500 — not 200 and then 300 as the claim states. -/
theorem c1_counterexample :
    RunJobs initConfig [demoTree1, demoTree2] [200, 500] ⟨[], 500, false, 0, []⟩ ∧
    ([200, 500] : List Nat) ≠ [200, 300] :=
  ⟨demoRun2, by decide⟩

/-- Claim C1, amended: before each root the dispatcher installs a fresh
pending stack but does **not** reset the running total, so every run prints
the cumulative totals: root `i`'s line shows the sum of the bytes of roots
`1..i`. -/
theorem c1_totals_cumulative (rs : List FsTree) (outs : List Nat) (cf : Config)
    (h : RunJobs initConfig rs outs cf) : outs = cumTotals 0 rs :=
  (runJobs_spec h rfl).1

/-- Witness for `c1_totals_cumulative` on the two demonstration roots. -/
theorem c1_totals_cumulative_witness :
    ([200, 500] : List Nat) = cumTotals 0 [demoTree1, demoTree2] :=
  c1_totals_cumulative [demoTree1, demoTree2] [200, 500] ⟨[], 500, false, 0, []⟩ demoRun2

/-- Claim C2 (confirmed): for a static, fully readable tree, every execution
of a pool of at most `n` workers that reaches quiescence leaves the job total
at exactly the spec-side sum of all regular-file and symlink sizes of the
root's subtree (symlink targets never traversed), and any two such executions
— for any worker counts `n`, `m` — agree on the total. -/
theorem c2_total_schedule_independent (r : FsTree) (n m : Nat) (c c' : Config)
    (hr : listReadable r.children = true)
    (h : StepsN n (seedJob initConfig r) c) (hq : Quiescent c)
    (h' : StepsN m (seedJob initConfig r) c') (hq' : Quiescent c') :
    c.total = specListBytes r.children ∧ c'.total = c.total := by
  have j1 := job_run rfl (stepsN_steps h) hq
  have j2 := job_run rfl (stepsN_steps h') hq'
  have hb := forestBytes_of_readable r.children hr
  constructor
  · rw [j1.1, ← hb]
    simp [initConfig]
  · rw [j1.1, j2.1]

/-- Witness for `c2_total_schedule_independent`: the one-file tree, drained
under worker bounds 1 and 2. -/
theorem c2_witness :
    listReadable demoTree1.children = true ∧
    ((⟨[], 200, false, 0, []⟩ : Config).total = specListBytes demoTree1.children ∧
      (⟨[], 200, false, 0, []⟩ : Config).total = (⟨[], 200, false, 0, []⟩ : Config).total) :=
  ⟨by decide,
    c2_total_schedule_independent demoTree1 1 2
      ⟨[], 200, false, 0, []⟩ ⟨[], 200, false, 0, []⟩ (by decide)
      (demoChainN 1 (by decide)) ⟨rfl, rfl⟩ (demoChainN 2 (by decide)) ⟨rfl, rfl⟩⟩

/-- Claim C3: the pool does **not** always reach quiescence.  The initial
`work_available.wait` (line 180) and the dispatcher's `threads_complete.wait`
(line 149) are not guarded by predicates, so when the dispatcher seeds the
stack and calls `notify_one` before the worker first blocks, the notification
is lost: the reached state has the worker blocked in its initial wait, the
dispatcher blocked in `threads_complete.wait`, work still on the stack — and
no program step applies, so (absent a lucky spurious wakeup, which no
execution is required to have) both block forever and nothing is printed. -/
theorem c3_deadlock :
    SyncReach [7] (syncInit 1) deadState ∧
    syncNext [7] deadState = [] ∧
    deadState.printed = none ∧
    deadState.workers = [WPc.waitInit] ∧ deadState.dpc = DPc.waitTC :=
  ⟨deadState_reached, by decide, rfl, rfl, rfl⟩

/-- Claim C4, counterexample: the dispatcher's `threads_complete.wait` has no
predicate, so a spurious wakeup (allowed by `std::condition_variable`) lets
it read and print `stack.second` while a worker is still inside
`add_directory`: it prints 0 although the job's total becomes 7. -/
theorem c4_counterexample :
    SyncReachSp [7] (syncInit 1) earlyReadState ∧
    earlyReadState.printed = some 0 ∧ earlyReadState.pcount = 1 ∧
    isScanning (earlyReadState.workers.getD 0 .finished) = true ∧
    SyncReachSp [7] earlyReadState lateTotalState ∧
    lateTotalState.total = 7 ∧ lateTotalState.printed = some 0 :=
  ⟨earlyReadState_reached, rfl, rfl, rfl, lateTotalState_reached, rfl, rfl⟩

/-- Claim C4, amended: the worker-side half of the claim holds — the
quiescence notify of line 205 fires only in states where, under the lock, the
pending stack is empty **and** `process_count` is zero (the inner `while` of
lines 188-193 and the `if` of line 202 are evaluated in one critical
section, and `process_count` is never negative).  The dispatcher-side
"consequently" half fails, by the spurious-wakeup counterexample. -/
theorem c4_amended (root : List Nat) (n : Nat) (s : SyncState) (i : Nat)
    (hreach : SyncReachSp root (syncInit n) s)
    (hw : s.workers.getD i .finished = WPc.evalLoop)
    (hstk : s.stack = []) (hnp : ¬s.pcount > 0) (hnw : s.noMoreWork = false) :
    s.stack = [] ∧ s.pcount = 0 := by
  obtain ⟨-, hpos⟩ := syncReachSp_inv hreach
  exact ⟨hstk, by omega⟩

/-- Witness for `c4_amended`: the signalling state of the normal one-worker
run. -/
theorem c4_amended_witness :
    sigState.workers.getD 0 .finished = WPc.evalLoop ∧ sigState.stack = [] ∧
    ¬sigState.pcount > 0 ∧ sigState.noMoreWork = false ∧
    (sigState.stack = [] ∧ sigState.pcount = 0) :=
  ⟨rfl, rfl, by decide, rfl,
    c4_amended [7] 1 sigState 0 sigState_reached rfl rfl (by decide) rfl⟩

/-- Claim C5 (confirmed): for every terminating dispatcher run, the process
exit status (the final value of the shared `error` flag) is non-zero exactly
when some reachable directory entry of some root was unreadable; the total
counts exactly the bytes of the readable part (`forestBytes` attributes 0 to
an unreadable directory and full counts to its siblings). -/
theorem c5_exit_iff_unreadable (rs : List FsTree) (outs : List Nat) (cf : Config)
    (h : RunJobs initConfig rs outs cf) :
    (exit_value cf ≠ 0 ↔ ∃ r ∈ rs, UnreadableReachable r.children) ∧
    cf.total = (rs.map fun r => forestBytes r.children).sum := by
  obtain ⟨-, htot, herr, -⟩ := runJobs_spec h rfl
  have herr' : cf.errFlag = (rs.any fun r => forestErr r.children) := by
    simpa [initConfig] using herr
  constructor
  · have hb : (exit_value cf ≠ 0) ↔ cf.errFlag = true := by
      simp only [exit_value]
      cases hcf : cf.errFlag <;> simp
    rw [hb, herr', List.any_eq_true]
    constructor
    · rintro ⟨r, hrr, hfe⟩
      exact ⟨r, hrr, (forestErr_iff_unreadable r.children).mp hfe⟩
    · rintro ⟨r, hrr, hur⟩
      exact ⟨r, hrr, (forestErr_iff_unreadable r.children).mpr hur⟩
  · simpa [initConfig] using htot

/-- Witness for `c5_exit_iff_unreadable`: the specification's scenario tree
(100-byte file + readable 50-byte subtree + unreadable 10-byte subtree):
total 150, exit status non-zero. -/
theorem c5_witness :
    (exit_value ⟨[], 150, true, 0, []⟩ ≠ 0 ↔
      ∃ r ∈ [rootC5], UnreadableReachable r.children) ∧
    (⟨[], 150, true, 0, []⟩ : Config).total =
      ([rootC5].map fun r => forestBytes r.children).sum :=
  c5_exit_iff_unreadable [rootC5] [150] ⟨[], 150, true, 0, []⟩ runC5

/-- Claim C6, counterexample: an entry whose metadata query throws does
**not** get skipped: the `filesystem_error` escapes `add_directory` (no
`try`/`catch` exists), so the scan of `dir6` aborts at the bad first entry.
The claim would require success with the 5-byte second entry still counted;
the code returns the escaping-exception result instead. -/
theorem c6_counterexample :
    add_directory sh0 dir6 = Except.error sh0 ∧
    add_directory sh0 dir6 ≠ Except.ok ({ sh0 with total := 5 }, false) := by
  have h : add_directory sh0 dir6 = Except.error sh0 := rfl
  refine ⟨h, ?_⟩
  rw [h]
  exact fun hc => Except.noConfusion hc

/-- Claim C6, amended: a metadata error on one entry raises an exception that
aborts the whole scan at that entry (and, escaping `thread_function`,
terminates the program): entries after it are never scanned, the local size
is never added to the shared total, and only the subdirectories already
pushed remain pushed.  The error flag is not set. -/
theorem c6_amended (st : ThreadInfo) (m : EntryMeta) (pre : List FsTree)
    (bad : FsTree) (post : List FsTree)
    (hpre : listOk pre = true) (hbad : bad.meta.metaOk = false) :
    add_directory st (.node m (pre ++ bad :: post)) =
      .error { st with pending := (pushedDirs pre).reverse ++ st.pending } :=
  add_directory_throw st m pre bad post hpre hbad

/-- Witness for `c6_amended`. -/
theorem c6_amended_witness :
    listOk [okE5] = true ∧ badE.meta.metaOk = false ∧
    add_directory sh0 (.node dirMeta ([okE5] ++ badE :: [])) =
      Except.error { sh0 with pending := (pushedDirs [okE5]).reverse ++ sh0.pending } :=
  ⟨by decide, by decide, c6_amended sh0 dirMeta [okE5] badE [] (by decide) (by decide)⟩

/-- Claim C7 (confirmed): on a successful scan every symlink entry
contributes its reported size to the local byte count (`symlinkBytes` is part
of the added total) and is never pushed onto the pending stack — the pushed
block contains no symlink, even one whose `is_directory()` answer is true,
because the `is_symlink` test of line 243 comes first. -/
theorem c7_symlink_counted_never_pushed (st : ThreadInfo) (m : EntryMeta)
    (cs : List FsTree) (h : listOk cs = true) :
    add_directory st (.node m cs) =
      Except.ok ({ st with
                    pending := (pushedDirs cs).reverse ++ st.pending,
                    total := st.total + (symlinkBytes cs + fileBytes cs) },
        scanErr cs) ∧
    ∀ t ∈ pushedDirs cs, t.meta.isSymlink = false := by
  refine ⟨?_, pushedDirs_no_symlink cs⟩
  rw [add_directory_ok st m cs h, localSize_decomp]

/-- Witness for `c7_symlink_counted_never_pushed`: a directory holding a
symlink-to-directory of size 9 and a 5-byte file — the symlink's 9 bytes are
counted and nothing is pushed. -/
theorem c7_witness :
    listOk [symDirE9, okE5] = true ∧
    add_directory sh0 (.node dirMeta [symDirE9, okE5]) =
      Except.ok ({ sh0 with
                    pending := (pushedDirs [symDirE9, okE5]).reverse ++ sh0.pending,
                    total := sh0.total +
                      (symlinkBytes [symDirE9, okE5] + fileBytes [symDirE9, okE5]) },
        scanErr [symDirE9, okE5]) ∧
    pushedDirs [symDirE9, okE5] = [] :=
  ⟨by decide,
    (c7_symlink_counted_never_pushed sh0 dirMeta [symDirE9, okE5] (by decide)).1,
    rfl⟩

/-- Claim C8, counterexample: `add_directory` **does** mutate shared state
during a scan — it acquires the lock and pushes each readable subdirectory
onto the shared stack (lines 254-259): the shared pending stack after the
call differs from the one before. -/
theorem c8_counterexample :
    add_directory sh0 dir8 = Except.ok ({ sh0 with pending := [subdirE] }, false) ∧
    ({ sh0 with pending := [subdirE] } : ThreadInfo).pending ≠ sh0.pending :=
  ⟨rfl, by simp [sh0]⟩

/-- Claim C8, amended: `add_directory` itself mutates exactly the shared
pending stack (pushing the readable subdirectories, under the lock, with a
notify) and the shared total (adding the local size at the end); it leaves
the error flag, `process_count` and `no_more_work` untouched — those are
updated by the caller. -/
theorem c8_amended (st : ThreadInfo) (m : EntryMeta) (cs : List FsTree)
    (h : listOk cs = true) (out : ThreadInfo) (errRet : Bool)
    (heq : add_directory st (.node m cs) = Except.ok (out, errRet)) :
    out.pending = (pushedDirs cs).reverse ++ st.pending ∧
    out.total = st.total + localSize cs ∧
    out.error = st.error ∧
    out.process_count = st.process_count ∧
    out.no_more_work = st.no_more_work ∧
    errRet = scanErr cs := by
  rw [add_directory_ok st m cs h] at heq
  simp only [Except.ok.injEq, Prod.mk.injEq] at heq
  obtain ⟨h1, h2⟩ := heq
  subst h2
  rw [← h1]
  simp

/-- Witness for `c8_amended`. -/
theorem c8_amended_witness :
    listOk [subdirE, okE5] = true ∧
    ((⟨[subdirE], 5, false, 0, false⟩ : ThreadInfo).pending =
        (pushedDirs [subdirE, okE5]).reverse ++ sh0.pending ∧
      (⟨[subdirE], 5, false, 0, false⟩ : ThreadInfo).total =
        sh0.total + localSize [subdirE, okE5] ∧
      (⟨[subdirE], 5, false, 0, false⟩ : ThreadInfo).error = sh0.error ∧
      (⟨[subdirE], 5, false, 0, false⟩ : ThreadInfo).process_count = sh0.process_count ∧
      (⟨[subdirE], 5, false, 0, false⟩ : ThreadInfo).no_more_work = sh0.no_more_work ∧
      false = scanErr [subdirE, okE5]) :=
  ⟨by decide,
    c8_amended sh0 dirMeta [subdirE, okE5] (by decide)
      ⟨[subdirE], 5, false, 0, false⟩ false rfl⟩

/-- Claim C9, counterexample: there is no lower clamp on the worker count —
`-j 0` yields 0 worker threads (and 0 < 1), refuting "a requested count of 0
or less still yields at least one worker". -/
theorem c9_counterexample :
    check_num_threads 8 ["-j", "0"] = some ([], 0) ∧ ¬(1 ≤ (0 : Int)) :=
  ⟨by decide, by decide⟩

/-- Claim C9, amended: a parsed `-j k` is clamped **down** to the hardware
concurrency when it exceeds it, and is otherwise taken as is — including 0
and negative values; only the default (no `-j` given) is 1. -/
theorem c9_amended (maxThreads k : Int) (v : String) (pre post : List String)
    (hpre : "-j" ∉ pre) (hpost : "-j" ∉ post) (hv : stoi v = some k) :
    check_num_threads maxThreads (pre ++ "-j" :: v :: post) =
      some (pre ++ post, if k > maxThreads then maxThreads else k) := by
  unfold check_num_threads
  rw [argLoop_no_j maxThreads pre hpre ("-j" :: v :: post) 1 [], argLoop.eq_def]
  simp only [hv, List.append_nil, if_pos rfl]
  rw [argLoop_final maxThreads post hpost _ pre.reverse]
  simp

/-- Witness for `c9_amended`. -/
theorem c9_amended_witness :
    ("-j" ∉ (["a"] : List String)) ∧ ("-j" ∉ (["b"] : List String)) ∧
    stoi "3" = some 3 ∧
    check_num_threads 8 (["a"] ++ "-j" :: "3" :: ["b"]) =
      some (["a"] ++ ["b"], if (3 : Int) > 8 then 8 else 3) :=
  ⟨by decide, by decide, by decide,
    c9_amended 8 3 "3" ["a"] ["b"] (by decide) (by decide) (by decide)⟩

/-- Claim C10 (confirmed): along every execution from a configuration where
`process_count` matches the in-flight scans (in particular from any job
start, where both are zero), `process_count` always equals the number of
workers currently inside `add_directory` and is never negative — it is
incremented under the lock at line 215 exactly when a scan starts and
decremented under the lock at line 227 exactly when one ends. -/
theorem c10_process_count (c0 c : Config)
    (h0 : c0.pcount = c0.scanners.length) (h : Steps c0 c) :
    c.pcount = c.scanners.length ∧ 0 ≤ c.pcount := by
  have h3 := (steps_invariants h).2.2
  omega

/-- Witness for `c10_process_count` on the demonstration drain. -/
theorem c10_witness :
    (seedJob initConfig demoTree1).pcount =
      (seedJob initConfig demoTree1).scanners.length ∧
    ((⟨[], 200, false, 0, []⟩ : Config).pcount =
        (⟨[], 200, false, 0, []⟩ : Config).scanners.length ∧
      0 ≤ (⟨[], 200, false, 0, []⟩ : Config).pcount) :=
  ⟨rfl, c10_process_count _ _ rfl (stepsN_steps (demoChainN 1 (by decide)))⟩

end Mdu
